import Mathlib

set_option maxRecDepth 100000

/-!
Shallow embedding of the Synopsys HSDK SDP generic PLL clock driver
(drivers/clk/hsdk-clk.c, U-Boot, ARC HSDK target).

Modelling conventions:
* the target CPU (ARC HS) is 32-bit, so the C types `unsigned long`,
  `u32` and `int` are all 32 bits wide; `unsigned long` values are
  modelled as `Nat` and wrap-around is made explicit with `% 4294967296`
  where the C arithmetic can wrap;
* memory-mapped register writes, the bounded lock wait and status-register
  reads are recorded as an explicit event trace (`PllEvent`); the value the
  hardware presents in the status register after the 100 us wait is an
  environment input (`status` parameter) assumed stable across the two
  back-to-back reads performed by `hsdk_pll_is_locked`/`hsdk_pll_is_err`;
* the rate tables are Lean lists that include the zero sentinel entry of
  the C arrays; the scanning loops stop at the first zero-rate entry or at
  the end of the list (the C code relies on the sentinel being present);
* the C functions return `int` error codes (0, -ETIMEDOUT, -EINVAL) which
  `hsdk_pll_set_rate` passes through (cast to `ulong` in C); the model
  keeps them as `Int`.
-/

/-- One rate-table entry (struct hsdk_pll_cfg): target frequency in Hz and
the raw register field values for the input, feedback and output dividers
and the band select. -/
structure hsdk_pll_cfg where
  rate : Nat
  idiv : Nat
  fbdiv : Nat
  odiv : Nat
  band : Nat

deriving instance DecidableEq for hsdk_pll_cfg

/-- Control-register field layout and status bits, as in the C macros.
GENMASK-derived masks are written as their numeric values:
ODIV bits [3:2], IDIV bits [8:4], FBDIV bits [15:9], BAND bits from 20. -/
def CGU_PLL_CTRL_ODIV_SHIFT : Nat := 2

def CGU_PLL_CTRL_IDIV_SHIFT : Nat := 4

def CGU_PLL_CTRL_FBDIV_SHIFT : Nat := 9

def CGU_PLL_CTRL_BAND_SHIFT : Nat := 20

/-- GENMASK(3, 2) = 0xC. -/
def CGU_PLL_CTRL_ODIV_MASK : Nat := 12

/-- GENMASK(8, 4) = 0x1F0. -/
def CGU_PLL_CTRL_IDIV_MASK : Nat := 496

/-- GENMASK(15, 9) = 0xFE00. -/
def CGU_PLL_CTRL_FBDIV_MASK : Nat := 65024

/-- BIT(0) of the control register: powerdown. -/
def CGU_PLL_CTRL_PD : Nat := 1

/-- BIT(1) of the control register: bypass. -/
def CGU_PLL_CTRL_BYPASS : Nat := 2

/-- BIT(0) of the status register: lock. -/
def CGU_PLL_STATUS_LOCK : Nat := 1

/-- BIT(1) of the status register: error. -/
def CGU_PLL_STATUS_ERR : Nat := 2

/-- Maximum lock wait, in microseconds. -/
def HSDK_PLL_MAX_LOCK_TIME : Nat := 100

/-- Value written to the auxiliary CREG core interface divider register:
divide by 1. -/
def CREG_CORE_IF_CLK_DIV_1 : Nat := 0

/-- Value written to the auxiliary CREG core interface divider register:
divide by 2. -/
def CREG_CORE_IF_CLK_DIV_2 : Nat := 1

/-- Core-clock threshold above which the interface divider must be 2. -/
def CORE_IF_CLK_THRESHOLD_HZ : Nat := 500000000

/-- Fixed crystal reference frequency, Hz. -/
def PARENT_RATE : Nat := 33333333

/-- Linux error numbers used by the driver. -/
def ETIMEDOUT : Int := 110

def EINVAL : Int := 22

def ENOENT : Int := 2

/-- The value of (unsigned long)(-EINVAL) on the 32-bit target, produced
by hsdk_pll_round_rate when the table starts with the sentinel. -/
def EINVAL_ULONG : Nat := 4294967274

/-- Rate table shared by the core-clock and generic system PLL variants
(static const struct hsdk_pll_cfg asdt_pll_cfg[]), including the zero
sentinel entry. -/
def asdt_pll_cfg : List hsdk_pll_cfg :=
  [⟨100000000, 0, 11, 3, 0⟩,
   ⟨133000000, 0, 15, 3, 0⟩,
   ⟨200000000, 1, 47, 3, 0⟩,
   ⟨233000000, 1, 27, 2, 0⟩,
   ⟨300000000, 1, 35, 2, 0⟩,
   ⟨333000000, 1, 39, 2, 0⟩,
   ⟨400000000, 1, 47, 2, 0⟩,
   ⟨500000000, 0, 14, 1, 0⟩,
   ⟨600000000, 0, 17, 1, 0⟩,
   ⟨700000000, 0, 20, 1, 0⟩,
   ⟨800000000, 0, 23, 1, 0⟩,
   ⟨900000000, 1, 26, 0, 0⟩,
   ⟨1000000000, 1, 29, 0, 0⟩,
   ⟨1100000000, 1, 32, 0, 0⟩,
   ⟨1200000000, 1, 35, 0, 0⟩,
   ⟨1300000000, 1, 38, 0, 0⟩,
   ⟨1400000000, 1, 41, 0, 0⟩,
   ⟨1500000000, 1, 44, 0, 0⟩,
   ⟨1600000000, 1, 47, 0, 0⟩,
   ⟨0, 0, 0, 0, 0⟩]

/-- Rate table of the HDMI PLL variant (static const struct hsdk_pll_cfg
hdmi_pll_cfg[]), including the zero sentinel entry. -/
def hdmi_pll_cfg : List hsdk_pll_cfg :=
  [⟨297000000, 0, 21, 2, 0⟩,
   ⟨540000000, 0, 19, 1, 0⟩,
   ⟨594000000, 0, 21, 1, 0⟩,
   ⟨0, 0, 0, 0, 0⟩]

/-- Control-register word written by hsdk_pll_set_cfg: the divider and
band codes packed at their shifts, powerdown and bypass bits clear; the
word is a u32, hence the final reduction mod 2^32. -/
def hsdk_pll_cfg_val (cfg : hsdk_pll_cfg) : Nat :=
  ((cfg.idiv <<< CGU_PLL_CTRL_IDIV_SHIFT) |||
   (cfg.fbdiv <<< CGU_PLL_CTRL_FBDIV_SHIFT) |||
   (cfg.odiv <<< CGU_PLL_CTRL_ODIV_SHIFT) |||
   (cfg.band <<< CGU_PLL_CTRL_BAND_SHIFT)) % 4294967296

/-- Input divider decoded from a control-register value:
reg.idiv + 1 (hsdk_pll_get_rate). -/
def hsdk_pll_idiv_of (val : Nat) : Nat :=
  1 + ((val &&& CGU_PLL_CTRL_IDIV_MASK) >>> CGU_PLL_CTRL_IDIV_SHIFT)

/-- Feedback divider decoded from a control-register value:
2 * (reg.fbdiv + 1) (hsdk_pll_get_rate). -/
def hsdk_pll_fbdiv_of (val : Nat) : Nat :=
  2 * (1 + ((val &&& CGU_PLL_CTRL_FBDIV_MASK) >>> CGU_PLL_CTRL_FBDIV_SHIFT))

/-- Output divider decoded from a control-register value:
2 ^ reg.odiv (hsdk_pll_get_rate). -/
def hsdk_pll_odiv_of (val : Nat) : Nat :=
  1 <<< ((val &&& CGU_PLL_CTRL_ODIV_MASK) >>> CGU_PLL_CTRL_ODIV_SHIFT)

/-- Frequency decode of hsdk_pll_get_rate from a raw control-register
value: 0 when powered down, the reference when bypassed, otherwise
floor(PARENT_RATE * fbdiv / (idiv * odiv)) computed in u64 (the product is
at most 33333333 * 256, far below 2^64, so plain Nat arithmetic is exact). -/
def hsdk_pll_get_rate_val (val : Nat) : Nat :=
  if val &&& CGU_PLL_CTRL_PD ≠ 0 then 0
  else if val &&& CGU_PLL_CTRL_BYPASS ≠ 0 then PARENT_RATE
  else PARENT_RATE * hsdk_pll_fbdiv_of val /
    (hsdk_pll_idiv_of val * hsdk_pll_odiv_of val)

/-- lock test on a sampled status-register value (hsdk_pll_is_locked). -/
def hsdk_pll_is_locked (status : Nat) : Bool :=
  status &&& CGU_PLL_STATUS_LOCK != 0

/-- error test on a sampled status-register value (hsdk_pll_is_err). -/
def hsdk_pll_is_err (status : Nat) : Bool :=
  status &&& CGU_PLL_STATUS_ERR != 0

/-- (a - b) computed in 32-bit unsigned arithmetic. -/
def u32sub (a b : Nat) : Nat :=
  (a + (4294967296 - b % 4294967296)) % 4294967296

/-- Reinterpretation of a 32-bit unsigned value as a signed 32-bit long. -/
def toInt32 (n : Nat) : Int :=
  if n < 2147483648 then (n : Int) else (n : Int) - 4294967296

/-- The kernel-style abs() on a 32-bit long; negating the most negative
long wraps back to itself (two's-complement behaviour of the target). -/
def cAbsLong (x : Int) : Int :=
  if x < 0 then (if x = -2147483648 then x else -x) else x

/-- The comparison key abs(rate - c) used by hsdk_pll_round_rate, computed
exactly as on the 32-bit target: unsigned 32-bit subtraction, result
reinterpreted as signed long, then abs(). -/
def cMetric (rate c : Nat) : Int :=
  cAbsLong (toInt32 (u32sub rate c))

/-- Mathematical absolute difference of two naturals (used only to state
properties, never in the embedded code). -/
def absDiffN (a b : Nat) : Nat :=
  if a ≤ b then b - a else a - b

/-- The rate of pll_cfg[0], with an empty list standing for a table that
starts with the sentinel. -/
def hsdk_pll_head_rate : List hsdk_pll_cfg → Nat
  | [] => 0
  | c :: _ => c.rate

/-- Target frequencies of the table entries before the first sentinel:
the entries the C scanning loops actually visit. -/
def tblRates (tbl : List hsdk_pll_cfg) : List Nat :=
  (tbl.takeWhile (fun c => c.rate != 0)).map (fun c => c.rate)

/-- The scanning loop of hsdk_pll_round_rate from entry 1 on: replace the
best rate only on strict improvement of the abs() key, stop at the
sentinel. -/
def hsdk_pll_round_loop (rate : Nat) : List hsdk_pll_cfg → Nat → Nat
  | [], best => best
  | c :: tl, best =>
    if c.rate = 0 then best
    else hsdk_pll_round_loop rate tl
      (if cMetric rate c.rate < cMetric rate best then c.rate else best)

/-- hsdk_pll_round_rate: nearest-match search over the variant's table;
returns (ulong)(-EINVAL) when the table starts with the sentinel, else the
best rate found by the linear scan started at entry 0. -/
def hsdk_pll_round_rate (tbl : List hsdk_pll_cfg) (rate : Nat) : Nat :=
  match tbl with
  | [] => EINVAL_ULONG
  | c :: tl => if c.rate = 0 then EINVAL_ULONG
    else hsdk_pll_round_loop rate tl c.rate

/-- Hardware interactions recorded by the sequencing model, in program
order: a write of the main control register, a write of the auxiliary
CREG interface-divider register, the bounded udelay, and a read of the
status register returning the sampled value. -/
inductive PllEvent where
  | ctrlWrite (val : Nat)
  | auxWrite (val : Nat)
  | delay (us : Nat)
  | statusRead (val : Nat)

deriving instance DecidableEq for PllEvent

/-- hsdk_pll_comm_update_rate: write the configuration, wait, then check
lock and error on the sampled status value; no auxiliary-register access.
The first component is the C int result, the second the event trace. -/
def hsdk_pll_comm_update_rate (rate : Nat) (cfg : hsdk_pll_cfg)
    (status : Nat) : Int × List PllEvent :=
  let ev0 := [PllEvent.ctrlWrite (hsdk_pll_cfg_val cfg),
              PllEvent.delay HSDK_PLL_MAX_LOCK_TIME,
              PllEvent.statusRead status]
  if !hsdk_pll_is_locked status then (-ETIMEDOUT, ev0)
  else if hsdk_pll_is_err status then
    (-EINVAL, ev0 ++ [PllEvent.statusRead status])
  else (0, ev0 ++ [PllEvent.statusRead status])

/-- hsdk_pll_core_update_rate: as the common variant, but writes the
auxiliary interface divider to div-by-2 before the control write when the
rate passed in exceeds the threshold, and to div-by-1 after a successful
lock/error check when that rate is at or below the threshold. -/
def hsdk_pll_core_update_rate (rate : Nat) (cfg : hsdk_pll_cfg)
    (status : Nat) : Int × List PllEvent :=
  let pre := if CORE_IF_CLK_THRESHOLD_HZ < rate
    then [PllEvent.auxWrite CREG_CORE_IF_CLK_DIV_2] else []
  let ev0 := pre ++ [PllEvent.ctrlWrite (hsdk_pll_cfg_val cfg),
                     PllEvent.delay HSDK_PLL_MAX_LOCK_TIME,
                     PllEvent.statusRead status]
  if !hsdk_pll_is_locked status then (-ETIMEDOUT, ev0)
  else if hsdk_pll_is_err status then
    (-EINVAL, ev0 ++ [PllEvent.statusRead status])
  else if rate ≤ CORE_IF_CLK_THRESHOLD_HZ then
    (0, ev0 ++ [PllEvent.statusRead status,
                PllEvent.auxWrite CREG_CORE_IF_CLK_DIV_1])
  else (0, ev0 ++ [PllEvent.statusRead status])

/-- struct hsdk_pll_devdata: the variant's rate table and its
update-rate routine. -/
structure hsdk_pll_devdata where
  pll_cfg : List hsdk_pll_cfg
  update_rate : Nat → hsdk_pll_cfg → Nat → Int × List PllEvent

/-- Devdata of the core-clock variant. -/
def core_pll_devdata : hsdk_pll_devdata :=
  ⟨asdt_pll_cfg, hsdk_pll_core_update_rate⟩

/-- Devdata of the generic system PLL variant. -/
def sdt_pll_devdata : hsdk_pll_devdata :=
  ⟨asdt_pll_cfg, hsdk_pll_comm_update_rate⟩

/-- Devdata of the HDMI PLL variant. -/
def hdmi_pll_devdata : hsdk_pll_devdata :=
  ⟨hdmi_pll_cfg, hsdk_pll_comm_update_rate⟩

/-- The equality-lookup loop of hsdk_pll_set_rate: first entry before the
sentinel whose rate equals the given best rate. -/
def hsdk_pll_find : List hsdk_pll_cfg → Nat → Option hsdk_pll_cfg
  | [], _ => none
  | c :: tl, best =>
    if c.rate = 0 then none
    else if c.rate = best then some c
    else hsdk_pll_find tl best

/-- hsdk_pll_set_rate: round the request against the variant's table, look
the matched rate up by equality, and return the update routine's result
(called with the matched rate, not the raw request); if no entry matches,
return -EINVAL with no hardware access. -/
def hsdk_pll_set_rate (dd : hsdk_pll_devdata) (status : Nat) (rate : Nat) :
    Int × List PllEvent :=
  let best := hsdk_pll_round_rate dd.pll_cfg rate
  match hsdk_pll_find dd.pll_cfg best with
  | some cfg => dd.update_rate best cfg status
  | none => (-EINVAL, [])

/-- The three compatible strings of the of_match table, each selecting one
devdata record. -/
inductive hsdk_pll_compat where
  | gp_pll
  | hdmi_pll
  | core_pll

deriving instance DecidableEq for hsdk_pll_compat

/-- Driver data selected by the matched compatible string
(hsdk_pll_clk_id). -/
def hsdk_pll_driver_data : hsdk_pll_compat → hsdk_pll_devdata
  | .gp_pll => sdt_pll_devdata
  | .hdmi_pll => hdmi_pll_devdata
  | .core_pll => core_pll_devdata

/-- struct hsdk_pll_clk: register bases and the selected devdata. -/
structure hsdk_pll_clk where
  regs : Nat
  spec_regs : Nat
  pll_devdata : hsdk_pll_devdata

/-- hsdk_pll_clk_probe. Modelled from the spec: the device-tree helper
devfdt_get_addr_index that supplies the register base addresses is not
part of the source under analysis; following the spec, an absent auxiliary
register base is represented by a null (0) spec_regs value, which is what
the probe's null check rejects for the core-clock devdata. The pointer
comparison pll_devdata == &core_pll_devdata is represented by the selected
compatible being the core one. -/
def hsdk_pll_clk_probe (compat : hsdk_pll_compat) (regs spec_regs : Nat) :
    Except Int hsdk_pll_clk :=
  if compat = hsdk_pll_compat.core_pll ∧ spec_regs = 0 then
    Except.error (-ENOENT)
  else Except.ok ⟨regs, spec_regs, hsdk_pll_driver_data compat⟩

/-!
Theorems. Helper lemmas come first; the claim theorems themselves follow
and are each marked with the claim id in their doc comment.
-/

lemma tblRates_cons_zero {c : hsdk_pll_cfg} (tl : List hsdk_pll_cfg)
    (h : c.rate = 0) : tblRates (c :: tl) = [] := by
  simp [tblRates, List.takeWhile_cons, h]

lemma tblRates_cons_pos {c : hsdk_pll_cfg} (tl : List hsdk_pll_cfg)
    (h : c.rate ≠ 0) : tblRates (c :: tl) = c.rate :: tblRates tl := by
  simp [tblRates, List.takeWhile_cons, h]

lemma mem_tblRates {x : Nat} :
    ∀ {l : List hsdk_pll_cfg}, x ∈ tblRates l → ∃ e, e ∈ l ∧ e.rate = x := by
  intro l
  induction l with
  | nil => intro h; simp [tblRates] at h
  | cons c tl ih =>
    by_cases h : c.rate = 0
    · rw [tblRates_cons_zero tl h]; intro hx; simp at hx
    · rw [tblRates_cons_pos tl h]
      intro hx
      rcases List.mem_cons.mp hx with hx | hx
      · exact ⟨c, List.mem_cons_self c tl, hx.symm⟩
      · rcases ih hx with ⟨e, he, hr⟩
        exact ⟨e, List.mem_cons_of_mem c he, hr⟩

lemma round_loop_eq_fold (rate : Nat) :
    ∀ (tl : List hsdk_pll_cfg) (best : Nat),
      hsdk_pll_round_loop rate tl best =
        (tblRates tl).foldl
          (fun b c => if cMetric rate c < cMetric rate b then c else b) best := by
  intro tl
  induction tl with
  | nil => intro best; simp [hsdk_pll_round_loop, tblRates]
  | cons c tl ih =>
    intro best
    by_cases h : c.rate = 0
    · simp [hsdk_pll_round_loop, h, tblRates_cons_zero tl h]
    · rw [tblRates_cons_pos tl h]
      simp only [hsdk_pll_round_loop, if_neg h, List.foldl_cons]
      exact ih _

lemma fold_first_min (f : Nat → Int) :
    ∀ (l : List Nat) (a : Nat),
      (List.foldl (fun b c => if f c < f b then c else b) a l = a ∧
        ∀ c ∈ l, f a ≤ f c) ∨
      (∃ l1 l2,
        l = l1 ++ List.foldl (fun b c => if f c < f b then c else b) a l :: l2 ∧
        f (List.foldl (fun b c => if f c < f b then c else b) a l) < f a ∧
        (∀ c ∈ l1,
          f (List.foldl (fun b c => if f c < f b then c else b) a l) < f c) ∧
        (∀ c ∈ l2,
          f (List.foldl (fun b c => if f c < f b then c else b) a l) ≤ f c)) := by
  intro l
  induction l with
  | nil => intro a; left; simp
  | cons c tl ih =>
    intro a
    simp only [List.foldl_cons]
    by_cases h : f c < f a
    · rw [if_pos h]
      rcases ih c with ⟨heq, hall⟩ | ⟨l1, l2, hsplit, hlt, hpre, hpost⟩
      · right
        refine ⟨[], tl, ?_, ?_, ?_, ?_⟩
        · rw [heq]; rfl
        · rw [heq]; exact h
        · intro x hx; simp at hx
        · rw [heq]; exact hall
      · right
        refine ⟨c :: l1, l2, ?_, ?_, ?_, hpost⟩
        · rw [List.cons_append, ← hsplit]
        · exact lt_trans hlt h
        · intro x hx
          rcases List.mem_cons.mp hx with hx | hx
          · rw [hx]; exact hlt
          · exact hpre x hx
    · rw [if_neg h]
      rcases ih a with ⟨heq, hall⟩ | ⟨l1, l2, hsplit, hlt, hpre, hpost⟩
      · left
        refine ⟨heq, ?_⟩
        intro x hx
        rcases List.mem_cons.mp hx with hx | hx
        · rw [hx]; exact le_of_not_lt h
        · exact hall x hx
      · right
        refine ⟨c :: l1, l2, ?_, hlt, ?_, hpost⟩
        · rw [List.cons_append, ← hsplit]
        · intro x hx
          rcases List.mem_cons.mp hx with hx | hx
          · rw [hx]; exact lt_of_lt_of_le hlt (le_of_not_lt h)
          · exact hpre x hx

lemma cMetric_eq_absDiffN {a b : Nat} (ha : a < 2147483648)
    (hb : b < 2147483648) : cMetric a b = (absDiffN a b : Int) := by
  simp only [cMetric, u32sub, toInt32, cAbsLong, absDiffN]
  split_ifs <;> omega

lemma round_loop_mem (rate : Nat) :
    ∀ (tl : List hsdk_pll_cfg) (best : Nat),
      hsdk_pll_round_loop rate tl best = best ∨
      hsdk_pll_round_loop rate tl best ∈ tblRates tl := by
  intro tl
  induction tl with
  | nil => intro best; left; rfl
  | cons c tl ih =>
    intro best
    by_cases h : c.rate = 0
    · left; simp [hsdk_pll_round_loop, h]
    · rw [tblRates_cons_pos tl h]
      simp only [hsdk_pll_round_loop, if_neg h]
      by_cases hm : cMetric rate c.rate < cMetric rate best
      · rw [if_pos hm]
        rcases ih c.rate with h1 | h1
        · right; rw [h1]; exact List.mem_cons_self _ _
        · right; exact List.mem_cons_of_mem _ h1
      · rw [if_neg hm]
        rcases ih best with h1 | h1
        · left; exact h1
        · right; exact List.mem_cons_of_mem _ h1

lemma round_mem {tbl : List hsdk_pll_cfg} (rate : Nat)
    (h : hsdk_pll_head_rate tbl ≠ 0) :
    hsdk_pll_round_rate tbl rate ∈ tblRates tbl := by
  cases tbl with
  | nil => exact absurd rfl h
  | cons c tl =>
    have hc : c.rate ≠ 0 := h
    rw [tblRates_cons_pos tl hc]
    simp only [hsdk_pll_round_rate, if_neg hc]
    rcases round_loop_mem rate tl c.rate with h1 | h1
    · rw [h1]; exact List.mem_cons_self _ _
    · exact List.mem_cons_of_mem _ h1

lemma find_of_mem {r : Nat} :
    ∀ {tbl : List hsdk_pll_cfg}, r ∈ tblRates tbl →
      ∃ cfg, cfg ∈ tbl ∧ cfg.rate = r ∧ hsdk_pll_find tbl r = some cfg := by
  intro tbl
  induction tbl with
  | nil => intro h; simp [tblRates] at h
  | cons c tl ih =>
    intro hmem
    by_cases h : c.rate = 0
    · rw [tblRates_cons_zero tl h] at hmem; simp at hmem
    · rw [tblRates_cons_pos tl h] at hmem
      by_cases he : c.rate = r
      · exact ⟨c, List.mem_cons_self c tl, he,
          by simp only [hsdk_pll_find]; rw [if_neg h, if_pos he]⟩
      · have hr : r ∈ tblRates tl := by
          rcases List.mem_cons.mp hmem with h1 | h1
          · exact absurd h1.symm he
          · exact h1
        rcases ih hr with ⟨cfg, h1, h2, h3⟩
        exact ⟨cfg, List.mem_cons_of_mem c h1, h2,
          by simp [hsdk_pll_find, h, he, h3]⟩

lemma set_rate_eq_update (dd : hsdk_pll_devdata) (status rate : Nat)
    (h : hsdk_pll_head_rate dd.pll_cfg ≠ 0) :
    ∃ cfg, cfg ∈ dd.pll_cfg ∧
      cfg.rate = hsdk_pll_round_rate dd.pll_cfg rate ∧
      hsdk_pll_find dd.pll_cfg (hsdk_pll_round_rate dd.pll_cfg rate) =
        some cfg ∧
      hsdk_pll_set_rate dd status rate =
        dd.update_rate (hsdk_pll_round_rate dd.pll_cfg rate) cfg status := by
  rcases find_of_mem (round_mem rate h) with ⟨cfg, h1, h2, h3⟩
  exact ⟨cfg, h1, h2, h3, by simp [hsdk_pll_set_rate, h3]⟩

lemma comm_update_paths (r : Nat) (cfg : hsdk_pll_cfg) (status : Nat) :
    (hsdk_pll_is_locked status = false →
      (hsdk_pll_comm_update_rate r cfg status).1 = -ETIMEDOUT ∧
      PllEvent.auxWrite CREG_CORE_IF_CLK_DIV_1 ∉
        (hsdk_pll_comm_update_rate r cfg status).2) ∧
    (hsdk_pll_is_locked status = true → hsdk_pll_is_err status = true →
      (hsdk_pll_comm_update_rate r cfg status).1 = -EINVAL) := by
  constructor
  · intro h
    constructor
    · simp [hsdk_pll_comm_update_rate, h]
    · simp [hsdk_pll_comm_update_rate, h]
  · intro hl he
    simp [hsdk_pll_comm_update_rate, hl, he]

lemma core_update_paths (r : Nat) (cfg : hsdk_pll_cfg) (status : Nat) :
    (hsdk_pll_is_locked status = false →
      (hsdk_pll_core_update_rate r cfg status).1 = -ETIMEDOUT ∧
      PllEvent.auxWrite CREG_CORE_IF_CLK_DIV_1 ∉
        (hsdk_pll_core_update_rate r cfg status).2) ∧
    (hsdk_pll_is_locked status = true → hsdk_pll_is_err status = true →
      (hsdk_pll_core_update_rate r cfg status).1 = -EINVAL) := by
  constructor
  · intro h
    constructor
    · by_cases hr : CORE_IF_CLK_THRESHOLD_HZ < r <;>
        simp [hsdk_pll_core_update_rate, h, hr]
    · by_cases hr : CORE_IF_CLK_THRESHOLD_HZ < r <;>
        simp [hsdk_pll_core_update_rate, h, hr,
          CREG_CORE_IF_CLK_DIV_1, CREG_CORE_IF_CLK_DIV_2]
  · intro hl he
    by_cases hr : CORE_IF_CLK_THRESHOLD_HZ < r <;>
      simp [hsdk_pll_core_update_rate, hl, he, hr]

/-- Claim C1 (code bug, supporting evaluation): on the generic system
variant with the hardware reporting lock and no error after the wait, a
250 MHz request matches the 233000000 table entry and the configuration is
applied successfully, yet hsdk_pll_set_rate returns 0 - the int success
code passed through from the update routine - and not the matched target
frequency, although the clk_ops set_rate contract and the spec require the
new rate to be returned. -/
theorem hsdk_set_rate_success_returns_zero :
    hsdk_pll_round_rate asdt_pll_cfg 250000000 = 233000000 ∧
    (hsdk_pll_set_rate sdt_pll_devdata 1 250000000).1 = 0 ∧
    (0 : Int) ≠ 233000000 := by decide

/-- Claim C2 counterexample: a requested rate of 510000000 Hz is strictly
above the 500 MHz threshold, yet the core-variant set_rate performs no
div-by-2 auxiliary write at all (the request is matched to the 500 MHz
table entry and the threshold is compared against that matched rate); the
complete trace even ends with the div-by-1 post write. -/
theorem hsdk_core_requested_rate_threshold_cex :
    CORE_IF_CLK_THRESHOLD_HZ < 510000000 ∧
    hsdk_pll_set_rate core_pll_devdata 1 510000000 =
      (0, [PllEvent.ctrlWrite 7172, PllEvent.delay 100,
           PllEvent.statusRead 1, PllEvent.statusRead 1,
           PllEvent.auxWrite CREG_CORE_IF_CLK_DIV_1]) ∧
    PllEvent.auxWrite CREG_CORE_IF_CLK_DIV_2 ∉
      (hsdk_pll_set_rate core_pll_devdata 1 510000000).2 := by decide

/-- Claim C3 counterexample: the control word programmed for the matched
233000000 Hz entry decodes back through hsdk_pll_get_rate to
233333331 Hz, not exactly 233000000 Hz. -/
theorem hsdk_scenario_250M_decode_cex :
    hsdk_pll_get_rate_val (hsdk_pll_cfg_val ⟨233000000, 1, 27, 2, 0⟩) =
      233333331 ∧ (233333331 : Nat) ≠ 233000000 := by decide

/-- Claim C3 (amended): on the generic table a 250 MHz request is matched
to 233000000 Hz; set_rate writes the control word 13848 (idiv=1, fbdiv=27,
odiv=2, band=0) and succeeds when the hardware locks without error, and
get_rate decodes that register value back to 233333331 Hz (the synthesized
frequency closest to the nominal 233 MHz), not exactly 233000000 Hz. -/
theorem hsdk_scenario_250M :
    hsdk_pll_round_rate asdt_pll_cfg 250000000 = 233000000 ∧
    hsdk_pll_cfg_val ⟨233000000, 1, 27, 2, 0⟩ = 13848 ∧
    hsdk_pll_set_rate sdt_pll_devdata 1 250000000 =
      (0, [PllEvent.ctrlWrite 13848, PllEvent.delay 100,
           PllEvent.statusRead 1, PllEvent.statusRead 1]) ∧
    hsdk_pll_get_rate_val 13848 = 233333331 := by decide

/-- Claim C4 counterexample: the first HDMI table entry (target 297000000,
idiv=0, fbdiv=21, odiv=2) decodes with the driver's fixed 33333333 Hz
reference to 366666663 Hz, 69666663 Hz away from its target - far outside
any integer-rounding tolerance (the HDMI divider codes correspond to a
27 MHz reference). -/
theorem hsdk_hdmi_roundtrip_cex :
    (⟨297000000, 0, 21, 2, 0⟩ : hsdk_pll_cfg) ∈ hdmi_pll_cfg ∧
    hsdk_pll_get_rate_val (hsdk_pll_cfg_val ⟨297000000, 0, 21, 2, 0⟩) =
      366666663 ∧
    absDiffN 366666663 297000000 = 69666663 := by decide

/-- Claim C4 (amended): decoding the encoded control word with the fixed
33333333 Hz reference reproduces the target frequency only for the generic
(asdt) table, and there only within 333332 Hz (the targets are nominal
values; the worst deviations are the 1/3-MHz-grid entries 133/233/333 MHz);
every HDMI table entry is off by at least 69666663 Hz. -/
theorem hsdk_tables_roundtrip_bounds :
    ((asdt_pll_cfg.takeWhile (fun c => c.rate != 0)).all
      (fun c => absDiffN (hsdk_pll_get_rate_val (hsdk_pll_cfg_val c)) c.rate
        ≤ 333332)) = true ∧
    ((hdmi_pll_cfg.takeWhile (fun c => c.rate != 0)).all
      (fun c => 69666663 ≤
        absDiffN (hsdk_pll_get_rate_val (hsdk_pll_cfg_val c)) c.rate)) =
      true := by decide

/-- Claim C5 counterexample: for the in-range but large request
4000000000 Hz (unsigned long is 32 bits on this target) the 32-bit abs()
key wraps: round_rate picks 100000000 Hz although the table entry
1600000000 Hz has a strictly smaller true absolute difference from the
request. -/
theorem hsdk_round_rate_wrap_cex :
    hsdk_pll_round_rate asdt_pll_cfg 4000000000 = 100000000 ∧
    1600000000 ∈ tblRates asdt_pll_cfg ∧
    absDiffN 4000000000 1600000000 < absDiffN 4000000000 100000000 := by
  decide

/-- Claim C7 counterexample: for the raw control value 3 the bypass bit is
set, yet get_rate returns 0 and not the reference frequency, because the
powerdown bit (also set) is checked first. -/
theorem hsdk_get_rate_pd_over_bypass_cex :
    3 &&& CGU_PLL_CTRL_BYPASS ≠ 0 ∧
    hsdk_pll_get_rate_val 3 = 0 ∧
    (0 : Nat) ≠ PARENT_RATE := by decide

/-- Claim C7 (amended): for every raw control-register value, get_rate
returns 0 whenever the powerdown bit is set, and returns exactly the
reference frequency whenever the bypass bit is set and the powerdown bit
is clear, regardless of all remaining register fields. -/
theorem hsdk_get_rate_pd_bypass (val : Nat) :
    (val &&& CGU_PLL_CTRL_PD ≠ 0 → hsdk_pll_get_rate_val val = 0) ∧
    (val &&& CGU_PLL_CTRL_PD = 0 → val &&& CGU_PLL_CTRL_BYPASS ≠ 0 →
      hsdk_pll_get_rate_val val = PARENT_RATE) := by
  constructor
  · intro h
    simp [hsdk_pll_get_rate_val, h]
  · intro h1 h2
    simp [hsdk_pll_get_rate_val, h1, h2]

/-- Witness for C7 at the concrete register values 1 (powerdown) and 2
(bypass only). -/
theorem hsdk_get_rate_pd_bypass_inst :
    hsdk_pll_get_rate_val 1 = 0 ∧ hsdk_pll_get_rate_val 2 = PARENT_RATE :=
  ⟨(hsdk_get_rate_pd_bypass 1).1 (by decide),
   (hsdk_get_rate_pd_bypass 2).2 (by decide) (by decide)⟩

/-- Claim C8: probing the core-clock variant with an absent (null)
auxiliary register base fails with -ENOENT and produces no instance, while
the generic and HDMI variants probe successfully without an auxiliary
base, for any main register base. -/
theorem hsdk_probe_core_requires_aux (regs : Nat) :
    hsdk_pll_clk_probe hsdk_pll_compat.core_pll regs 0 =
      Except.error (-ENOENT) ∧
    hsdk_pll_clk_probe hsdk_pll_compat.gp_pll regs 0 =
      Except.ok ⟨regs, 0, sdt_pll_devdata⟩ ∧
    hsdk_pll_clk_probe hsdk_pll_compat.hdmi_pll regs 0 =
      Except.ok ⟨regs, 0, hdmi_pll_devdata⟩ := by
  refine ⟨?_, ?_, ?_⟩ <;> simp [hsdk_pll_clk_probe, hsdk_pll_driver_data]

/-- Claim C9: the decode path of get_rate can never divide by zero: the
decoded input divider is field+1 and hence at least 1, the decoded output
divider is a power of two and hence at least 1, so their product is
positive for every raw register value (and the Lean model of get_rate is a
total function). -/
theorem hsdk_get_rate_divisor_pos (val : Nat) :
    0 < hsdk_pll_idiv_of val ∧ 0 < hsdk_pll_odiv_of val ∧
    0 < hsdk_pll_idiv_of val * hsdk_pll_odiv_of val := by
  have h1 : 0 < hsdk_pll_idiv_of val := by
    simp only [hsdk_pll_idiv_of]
    exact Nat.lt_of_lt_of_le Nat.one_pos (Nat.le_add_right 1 _)
  have h2 : 0 < hsdk_pll_odiv_of val := by
    simp only [hsdk_pll_odiv_of, Nat.one_shiftLeft]
    exact pow_pos (by norm_num) _
  exact ⟨h1, h2, Nat.mul_pos h1 h2⟩

/-- Claim C10: for every table whose first entry is not the sentinel and
every requested frequency, round_rate's result is the rate of some table
entry scanned before the sentinel; the equality-lookup loop of set_rate
therefore finds a matching entry, and set_rate returns the update
routine's result - the trailing -EINVAL fallback after the loop is
unreachable. -/
theorem hsdk_set_rate_lookup_total (tbl : List hsdk_pll_cfg) (rate : Nat)
    (h : hsdk_pll_head_rate tbl ≠ 0) :
    ∃ cfg, cfg ∈ tbl ∧ cfg.rate = hsdk_pll_round_rate tbl rate ∧
      hsdk_pll_find tbl (hsdk_pll_round_rate tbl rate) = some cfg ∧
      ∀ (upd : Nat → hsdk_pll_cfg → Nat → Int × List PllEvent)
        (status : Nat),
        hsdk_pll_set_rate ⟨tbl, upd⟩ status rate =
          upd (hsdk_pll_round_rate tbl rate) cfg status := by
  rcases find_of_mem (round_mem rate h) with ⟨cfg, h1, h2, h3⟩
  exact ⟨cfg, h1, h2, h3,
    fun upd status => by simp [hsdk_pll_set_rate, h3]⟩

/-- Witness for C10 on the generic table at the concrete request 777 Hz. -/
theorem hsdk_set_rate_lookup_total_inst :
    ∃ cfg, cfg ∈ asdt_pll_cfg ∧
      cfg.rate = hsdk_pll_round_rate asdt_pll_cfg 777 ∧
      hsdk_pll_find asdt_pll_cfg (hsdk_pll_round_rate asdt_pll_cfg 777) =
        some cfg ∧
      ∀ (upd : Nat → hsdk_pll_cfg → Nat → Int × List PllEvent)
        (status : Nat),
        hsdk_pll_set_rate ⟨asdt_pll_cfg, upd⟩ status 777 =
          upd (hsdk_pll_round_rate asdt_pll_cfg 777) cfg status :=
  hsdk_set_rate_lookup_total asdt_pll_cfg 777 (by decide)

/-- Claim C6: for every variant and every rate-set request, if the status
value sampled after the fixed 100 us wait has the lock bit clear, set_rate
returns -ETIMEDOUT (the lock-timeout path) and the post-step div-by-1
auxiliary write does not occur, whatever the requested rate; if the lock
bit is set but the error bit is set, set_rate returns -EINVAL (the
hardware-error path). -/
theorem hsdk_set_rate_lock_err_paths (compat : hsdk_pll_compat)
    (rate status : Nat) :
    (hsdk_pll_is_locked status = false →
      (hsdk_pll_set_rate (hsdk_pll_driver_data compat) status rate).1 =
        -ETIMEDOUT ∧
      PllEvent.auxWrite CREG_CORE_IF_CLK_DIV_1 ∉
        (hsdk_pll_set_rate (hsdk_pll_driver_data compat) status rate).2) ∧
    (hsdk_pll_is_locked status = true → hsdk_pll_is_err status = true →
      (hsdk_pll_set_rate (hsdk_pll_driver_data compat) status rate).1 =
        -EINVAL) := by
  have hhead :
      hsdk_pll_head_rate (hsdk_pll_driver_data compat).pll_cfg ≠ 0 := by
    cases compat <;> decide
  rcases set_rate_eq_update (hsdk_pll_driver_data compat) status rate hhead
    with ⟨cfg, hmem, hrate, hfind, hset⟩
  rw [hset]
  cases compat
  case gp_pll =>
    rw [show (hsdk_pll_driver_data hsdk_pll_compat.gp_pll).update_rate =
      hsdk_pll_comm_update_rate from rfl]
    exact comm_update_paths _ cfg status
  case hdmi_pll =>
    rw [show (hsdk_pll_driver_data hsdk_pll_compat.hdmi_pll).update_rate =
      hsdk_pll_comm_update_rate from rfl]
    exact comm_update_paths _ cfg status
  case core_pll =>
    rw [show (hsdk_pll_driver_data hsdk_pll_compat.core_pll).update_rate =
      hsdk_pll_core_update_rate from rfl]
    exact core_update_paths _ cfg status

/-- Witness for C6: core variant with a never-locking status (0) at a
request below the threshold, and generic variant with lock and error bits
both set (status 3). -/
theorem hsdk_set_rate_lock_err_paths_inst :
    ((hsdk_pll_set_rate (hsdk_pll_driver_data hsdk_pll_compat.core_pll)
        0 400000000).1 = -ETIMEDOUT ∧
      PllEvent.auxWrite CREG_CORE_IF_CLK_DIV_1 ∉
        (hsdk_pll_set_rate (hsdk_pll_driver_data hsdk_pll_compat.core_pll)
          0 400000000).2) ∧
    (hsdk_pll_set_rate (hsdk_pll_driver_data hsdk_pll_compat.gp_pll)
        3 400000000).1 = -EINVAL :=
  ⟨(hsdk_set_rate_lock_err_paths hsdk_pll_compat.core_pll 400000000 0).1
      (by decide),
   (hsdk_set_rate_lock_err_paths hsdk_pll_compat.gp_pll 400000000 3).2
      (by decide) (by decide)⟩

/-- Claim C2 (amended): the 500 MHz threshold comparisons of the
core-clock update routine are made against the rate argument it receives,
and set_rate passes it the matched table rate (the round_rate result),
not the raw requested rate. When that rate exceeds the threshold, the
div-by-2 auxiliary write precedes the control-register write; when it is
at or below the threshold, the only possible auxiliary write is the
div-by-1 write placed after the successful lock and error checks, and no
auxiliary write happens on a failed check; the common update routine used
by the generic-system and HDMI variants never writes the auxiliary
register. -/
theorem hsdk_core_update_aux_write_order (rate : Nat)
    (cfg : hsdk_pll_cfg) (status : Nat) :
    (CORE_IF_CLK_THRESHOLD_HZ < rate →
      ∃ tl, (hsdk_pll_core_update_rate rate cfg status).2 =
        PllEvent.auxWrite CREG_CORE_IF_CLK_DIV_2 ::
          PllEvent.ctrlWrite (hsdk_pll_cfg_val cfg) :: tl) ∧
    (rate ≤ CORE_IF_CLK_THRESHOLD_HZ →
      (hsdk_pll_is_locked status = true → hsdk_pll_is_err status = false →
        (hsdk_pll_core_update_rate rate cfg status).2 =
          [PllEvent.ctrlWrite (hsdk_pll_cfg_val cfg),
           PllEvent.delay HSDK_PLL_MAX_LOCK_TIME,
           PllEvent.statusRead status, PllEvent.statusRead status,
           PllEvent.auxWrite CREG_CORE_IF_CLK_DIV_1]) ∧
      (¬(hsdk_pll_is_locked status = true ∧
          hsdk_pll_is_err status = false) →
        ∀ v, PllEvent.auxWrite v ∉
          (hsdk_pll_core_update_rate rate cfg status).2)) ∧
    (∀ v, PllEvent.auxWrite v ∉
      (hsdk_pll_comm_update_rate rate cfg status).2) ∧
    (∀ dd : hsdk_pll_devdata, hsdk_pll_head_rate dd.pll_cfg ≠ 0 →
      ∃ c, hsdk_pll_set_rate dd status rate =
        dd.update_rate (hsdk_pll_round_rate dd.pll_cfg rate) c status) := by
  refine ⟨?_, ?_, ?_, ?_⟩
  · intro h
    have h' : ¬ rate ≤ CORE_IF_CLK_THRESHOLD_HZ := by omega
    cases hL : hsdk_pll_is_locked status
    · exact ⟨[PllEvent.delay HSDK_PLL_MAX_LOCK_TIME,
        PllEvent.statusRead status],
        by simp [hsdk_pll_core_update_rate, h, hL]⟩
    · cases hE : hsdk_pll_is_err status
      · exact ⟨[PllEvent.delay HSDK_PLL_MAX_LOCK_TIME,
          PllEvent.statusRead status, PllEvent.statusRead status],
          by simp [hsdk_pll_core_update_rate, h, h', hL, hE]⟩
      · exact ⟨[PllEvent.delay HSDK_PLL_MAX_LOCK_TIME,
          PllEvent.statusRead status, PllEvent.statusRead status],
          by simp [hsdk_pll_core_update_rate, h, hL, hE]⟩
  · intro h
    have h' : ¬ CORE_IF_CLK_THRESHOLD_HZ < rate := by omega
    constructor
    · intro hL hE
      simp [hsdk_pll_core_update_rate, h, h', hL, hE]
    · intro hfail v
      cases hL : hsdk_pll_is_locked status
      · simp [hsdk_pll_core_update_rate, h', hL]
      · cases hE : hsdk_pll_is_err status
        · exact absurd ⟨hL, hE⟩ hfail
        · simp [hsdk_pll_core_update_rate, h', hL, hE]
  · intro v
    cases hL : hsdk_pll_is_locked status
    · simp [hsdk_pll_comm_update_rate, hL]
    · cases hE : hsdk_pll_is_err status <;>
        simp [hsdk_pll_comm_update_rate, hL, hE]
  · intro dd hdd
    rcases set_rate_eq_update dd status rate hdd
      with ⟨c, _, _, _, hset⟩
    exact ⟨c, hset⟩

/-- Witness for C2 at concrete inputs: matched rate 600 MHz (above the
threshold, div-by-2 first) and matched rate 500 MHz (at the threshold,
div-by-1 last, after a locking, error-free status), plus the set_rate
dispatch for the core devdata. -/
theorem hsdk_core_update_aux_write_order_inst :
    (∃ tl, (hsdk_pll_core_update_rate 600000000 ⟨600000000, 0, 17, 1, 0⟩
        1).2 =
      PllEvent.auxWrite CREG_CORE_IF_CLK_DIV_2 ::
        PllEvent.ctrlWrite (hsdk_pll_cfg_val ⟨600000000, 0, 17, 1, 0⟩) ::
        tl) ∧
    (hsdk_pll_core_update_rate 500000000 ⟨500000000, 0, 14, 1, 0⟩ 1).2 =
      [PllEvent.ctrlWrite (hsdk_pll_cfg_val ⟨500000000, 0, 14, 1, 0⟩),
       PllEvent.delay HSDK_PLL_MAX_LOCK_TIME,
       PllEvent.statusRead 1, PllEvent.statusRead 1,
       PllEvent.auxWrite CREG_CORE_IF_CLK_DIV_1] ∧
    ∃ c, hsdk_pll_set_rate core_pll_devdata 1 600000000 =
      core_pll_devdata.update_rate
        (hsdk_pll_round_rate core_pll_devdata.pll_cfg 600000000) c 1 :=
  ⟨(hsdk_core_update_aux_write_order 600000000 ⟨600000000, 0, 17, 1, 0⟩
      1).1 (by decide),
   ((hsdk_core_update_aux_write_order 500000000 ⟨500000000, 0, 14, 1, 0⟩
      1).2.1 (by decide)).1 (by decide) (by decide),
   (hsdk_core_update_aux_write_order 600000000 ⟨600000000, 0, 17, 1, 0⟩
      1).2.2.2 core_pll_devdata (by decide)⟩

/-- Claim C5 (amended): for every requested frequency below 2^31 and every
table whose first entry is not the sentinel and whose target frequencies
are below 2^31 (both shipped tables qualify), round_rate returns the
target frequency of the earliest entry minimising the absolute difference
to the request: the scanned rates split around the result such that every
strictly earlier rate is strictly farther from the request and every
scanned rate is at least as far. For requests at 2^31 and beyond the
32-bit abs() key can wrap and the nearest entry need not be chosen. -/
theorem hsdk_round_rate_first_min (tbl : List hsdk_pll_cfg) (rate : Nat)
    (hrate : rate < 2147483648) (htbl : ∀ c ∈ tbl, c.rate < 2147483648)
    (hhead : hsdk_pll_head_rate tbl ≠ 0) :
    ∃ l1 l2, tblRates tbl = l1 ++ hsdk_pll_round_rate tbl rate :: l2 ∧
      (∀ c ∈ tblRates tbl,
        absDiffN rate (hsdk_pll_round_rate tbl rate) ≤ absDiffN rate c) ∧
      ∀ c ∈ l1,
        absDiffN rate (hsdk_pll_round_rate tbl rate) < absDiffN rate c := by
  cases tbl with
  | nil => exact absurd rfl hhead
  | cons c0 tl =>
    have hc0 : c0.rate ≠ 0 := hhead
    have hTR : tblRates (c0 :: tl) = c0.rate :: tblRates tl :=
      tblRates_cons_pos tl hc0
    have hbnd : ∀ x ∈ tblRates (c0 :: tl), x < 2147483648 := by
      intro x hx
      rcases mem_tblRates hx with ⟨e, he, hex⟩
      exact hex ▸ htbl e he
    have hr : hsdk_pll_round_rate (c0 :: tl) rate =
        (tblRates tl).foldl
          (fun b c => if cMetric rate c < cMetric rate b then c else b)
          c0.rate := by
      simp only [hsdk_pll_round_rate, if_neg hc0]
      exact round_loop_eq_fold rate tl c0.rate
    have hRmem :
        hsdk_pll_round_rate (c0 :: tl) rate ∈ tblRates (c0 :: tl) :=
      round_mem rate hhead
    have hRb : hsdk_pll_round_rate (c0 :: tl) rate < 2147483648 :=
      hbnd _ hRmem
    have hle : ∀ x, x < 2147483648 →
        cMetric rate (hsdk_pll_round_rate (c0 :: tl) rate) ≤
          cMetric rate x →
        absDiffN rate (hsdk_pll_round_rate (c0 :: tl) rate) ≤
          absDiffN rate x := by
      intro x hx hcomp
      rw [cMetric_eq_absDiffN hrate hRb,
        cMetric_eq_absDiffN hrate hx] at hcomp
      exact_mod_cast hcomp
    have hltN : ∀ x, x < 2147483648 →
        cMetric rate (hsdk_pll_round_rate (c0 :: tl) rate) <
          cMetric rate x →
        absDiffN rate (hsdk_pll_round_rate (c0 :: tl) rate) <
          absDiffN rate x := by
      intro x hx hcomp
      rw [cMetric_eq_absDiffN hrate hRb,
        cMetric_eq_absDiffN hrate hx] at hcomp
      exact_mod_cast hcomp
    rcases fold_first_min (cMetric rate) (tblRates tl) c0.rate with
      ⟨heq, hall⟩ | ⟨l1, l2, hsplit, hlt, hpre, hpost⟩
    · rw [← hr] at heq
      refine ⟨[], tblRates tl, ?_, ?_, ?_⟩
      · rw [hTR, heq]; rfl
      · intro x hx
        rw [hTR] at hx
        rcases List.mem_cons.mp hx with hx | hx
        · rw [hx, heq]
        · apply hle x (hbnd x (by rw [hTR]; exact List.mem_cons_of_mem _ hx))
          rw [heq]
          exact hall x hx
      · intro x hx
        simp at hx
    · rw [← hr] at hsplit hlt hpre hpost
      have hc0b : c0.rate < 2147483648 :=
        hbnd c0.rate (by rw [hTR]; exact List.mem_cons_self _ _)
      refine ⟨c0.rate :: l1, l2, ?_, ?_, ?_⟩
      · rw [hTR, hsplit]; rfl
      · intro x hx
        rw [hTR] at hx
        rcases List.mem_cons.mp hx with hx | hx
        · rw [hx]
          exact le_of_lt (hltN c0.rate hc0b hlt)
        · have hxb : x < 2147483648 :=
            hbnd x (by rw [hTR]; exact List.mem_cons_of_mem _ hx)
          rw [hsplit] at hx
          rcases List.mem_append.mp hx with hx1 | hx2
          · exact le_of_lt (hltN x hxb (hpre x hx1))
          · rcases List.mem_cons.mp hx2 with hx2 | hx2
            · rw [hx2]
            · exact hle x hxb (hpost x hx2)
      · intro x hx
        rcases List.mem_cons.mp hx with hx | hx
        · rw [hx]
          exact hltN c0.rate hc0b hlt
        · have hxm : x ∈ tblRates tl := by
            rw [hsplit]; exact List.mem_append_left _ hx
          have hxb : x < 2147483648 :=
            hbnd x (by rw [hTR]; exact List.mem_cons_of_mem _ hxm)
          exact hltN x hxb (hpre x hx)

/-- Witness for C5 on the generic table at the concrete request 250 MHz. -/
theorem hsdk_round_rate_first_min_inst :
    ∃ l1 l2, tblRates asdt_pll_cfg =
      l1 ++ hsdk_pll_round_rate asdt_pll_cfg 250000000 :: l2 ∧
      (∀ c ∈ tblRates asdt_pll_cfg,
        absDiffN 250000000 (hsdk_pll_round_rate asdt_pll_cfg 250000000) ≤
          absDiffN 250000000 c) ∧
      ∀ c ∈ l1,
        absDiffN 250000000 (hsdk_pll_round_rate asdt_pll_cfg 250000000) <
          absDiffN 250000000 c :=
  hsdk_round_rate_first_min asdt_pll_cfg 250000000 (by decide) (by decide)
    (by decide)

/-- Witness for C8 at the concrete main register base 4096. -/
theorem hsdk_probe_core_requires_aux_inst :
    hsdk_pll_clk_probe hsdk_pll_compat.core_pll 4096 0 =
      Except.error (-ENOENT) ∧
    hsdk_pll_clk_probe hsdk_pll_compat.gp_pll 4096 0 =
      Except.ok ⟨4096, 0, sdt_pll_devdata⟩ ∧
    hsdk_pll_clk_probe hsdk_pll_compat.hdmi_pll 4096 0 =
      Except.ok ⟨4096, 0, hdmi_pll_devdata⟩ :=
  hsdk_probe_core_requires_aux 4096

/-- Witness for C9 at the concrete register value 13848. -/
theorem hsdk_get_rate_divisor_pos_inst :
    0 < hsdk_pll_idiv_of 13848 ∧ 0 < hsdk_pll_odiv_of 13848 ∧
    0 < hsdk_pll_idiv_of 13848 * hsdk_pll_odiv_of 13848 :=
  hsdk_get_rate_divisor_pos 13848
